import Mathlib

/-!
Shallow embedding of `src/bot.py` (a CLI contact book): field validators
(`Name`, `Phone`, `Birthday`), `Record`, `AddressBook`, the upcoming-birthday
query, and the persistence entry points.  Python exceptions are modelled with
`Except PyErr`; the system clock (`datetime.today()` / `datetime.now()`) is an
explicit parameter; the filesystem of `pickle.load` is an explicit partial map.
Strings are Lean `String`s restricted to the ASCII fragment the program
manipulates: Python's `str.strip`, `str.isdigit`, `str.lower` and
`str.split('.')` are modelled by `pyStrip`, `pyIsDigit`, `pyLower` and
`pySplitDots` over the string's character list, which agree with them there.
-/

/-- Python exception values as raised by `bot.py` (`ValueError`, `KeyError`). -/
inductive PyErr where
  | valueError : String → PyErr
  | keyError : String → PyErr
  deriving DecidableEq

instance {ε α : Type} [DecidableEq ε] [DecidableEq α] : DecidableEq (Except ε α)
  | .ok a, .ok b => if h : a = b then .isTrue (by rw [h]) else .isFalse (by simp [h])
  | .ok _, .error _ => .isFalse (by simp)
  | .error _, .ok _ => .isFalse (by simp)
  | .error a, .error b => if h : a = b then .isTrue (by rw [h]) else .isFalse (by simp [h])

/-- Python `str.strip()` on the ASCII fragment: drop leading and trailing
whitespace. -/
def pyStrip (s : String) : String :=
  String.mk (((s.data.dropWhile Char.isWhitespace).reverse.dropWhile
    Char.isWhitespace).reverse)

/-- Python `str.lower()` on the ASCII fragment. -/
def pyLower (s : String) : String :=
  String.mk (s.data.map Char.toLower)

/-- A calendar date `(year, month, day)`, the date part of a Python
`datetime`. -/
structure Date where
  year : ℕ
  month : ℕ
  day : ℕ
  deriving DecidableEq

/-- A Python `datetime`: a calendar date plus a time-of-day in seconds
(`0 ≤ secs < 86400` for real datetimes; `datetime.strptime` produces
midnight, `secs = 0`). -/
structure DateTime where
  date : Date
  secs : ℕ
  deriving DecidableEq

/-- Gregorian leap-year test, as in Python's `calendar`/`datetime`. -/
def isLeap (y : ℕ) : Bool :=
  y % 4 == 0 && (y % 100 != 0 || y % 400 == 0)

/-- Length of month `m` (1-based) in a year whose leapness is `leap`;
`0` for an out-of-range month. -/
def monthLen (leap : Bool) : ℕ → ℕ
  | 1 => 31
  | 2 => if leap then 29 else 28
  | 3 => 31
  | 4 => 30
  | 5 => 31
  | 6 => 30
  | 7 => 31
  | 8 => 31
  | 9 => 30
  | 10 => 31
  | 11 => 30
  | 12 => 31
  | _ => 0

/-- Days in month `m` of year `y`, as used by `datetime` construction. -/
def daysInMonth (y m : ℕ) : ℕ := monthLen (isLeap y) m

/-- Days in the year before month `m` (1-based) begins. -/
def daysBeforeMonth (leap : Bool) : ℕ → ℕ
  | 1 => 0
  | 2 => 31
  | 3 => if leap then 60 else 59
  | 4 => if leap then 91 else 90
  | 5 => if leap then 121 else 120
  | 6 => if leap then 152 else 151
  | 7 => if leap then 182 else 181
  | 8 => if leap then 213 else 212
  | 9 => if leap then 244 else 243
  | 10 => if leap then 274 else 273
  | 11 => if leap then 305 else 304
  | 12 => if leap then 335 else 334
  | _ => 0

/-- `date.toordinal()`: day number in the proleptic Gregorian calendar with
`0001-01-01 ↦ 1` (Python's formula `365*(y-1) + (y-1)//4 - (y-1)//100 +
(y-1)//400 + daysBeforeMonth + d`). -/
def ordDate (d : Date) : ℕ :=
  365 * (d.year - 1) + ((d.year - 1) / 4 - (d.year - 1) / 100 + (d.year - 1) / 400)
    + daysBeforeMonth (isLeap d.year) d.month + d.day

/-- The date is one `datetime` accepts: month in `1..12`, day in
`1..daysInMonth`, year ≥ `datetime.MINYEAR = 1`. -/
def validDate (d : Date) : Prop :=
  1 ≤ d.year ∧ 1 ≤ d.month ∧ d.month ≤ 12 ∧ 1 ≤ d.day ∧ d.day ≤ daysInMonth d.year d.month

instance (d : Date) : Decidable (validDate d) := by
  unfold validDate; infer_instance

/-- A real `datetime` value: valid date, time-of-day below one day. -/
def validDT (t : DateTime) : Prop := validDate t.date ∧ t.secs < 86400

instance (t : DateTime) : Decidable (validDT t) := by
  unfold validDT; infer_instance

/-- Total seconds of a `datetime` since the epoch of `ordDate`; Python
compares and subtracts `datetime`s by this quantity. -/
def dtSecs (t : DateTime) : ℕ := ordDate t.date * 86400 + t.secs

/-- Python `datetime` `<` comparison (chronological). -/
def dtLt (a b : DateTime) : Prop := dtSecs a < dtSecs b

instance (a b : DateTime) : Decidable (dtLt a b) := by
  unfold dtLt; infer_instance

/-- `(a - b).days` on Python `datetime`s: the `timedelta` day count, i.e.
floor division of the signed second difference by 86400 (`Int.ediv` is floor
division for a positive divisor). -/
def timedeltaDays (a b : DateTime) : ℤ :=
  ((dtSecs a : ℤ) - (dtSecs b : ℤ)) / 86400

/-- `datetime.weekday()`: Monday = 0 … Sunday = 6 (0001-01-01 was a Monday). -/
def pyWeekday (d : Date) : ℕ := (ordDate d + 6) % 7

/-- `dt.replace(year := y)`: keeps month, day and time-of-day, re-validates
the date; raises `ValueError("day is out of range for month")` when the
month/day does not exist in year `y` (e.g. Feb 29 in a non-leap year). -/
def pyReplaceYear (t : DateTime) (y : ℕ) : Except PyErr DateTime :=
  if validDate ⟨y, t.date.month, t.date.day⟩ then
    .ok ⟨⟨y, t.date.month, t.date.day⟩, t.secs⟩
  else
    .error (.valueError "day is out of range for month")

/-- The calendar successor of a date (used to model `+ timedelta(days := k)`
for small `k`). -/
def nextDay (d : Date) : Date :=
  if d.day < daysInMonth d.year d.month then ⟨d.year, d.month, d.day + 1⟩
  else if d.month < 12 then ⟨d.year, d.month + 1, 1⟩
  else ⟨d.year + 1, 1, 1⟩

/-- `dt + timedelta(days := k)` for a natural `k` (time-of-day unchanged). -/
def addDays (t : DateTime) (k : ℕ) : DateTime :=
  ⟨Nat.rec t.date (fun _ ih => nextDay ih) k, t.secs⟩

/-- Zero-padded two-digit rendering, as `strftime` `%d` / `%m`. -/
def pad2 (n : ℕ) : String :=
  if n < 10 then "0" ++ toString n else toString n

/-- Zero-padded four-digit rendering, as `strftime` `%Y`. -/
def pad4 (n : ℕ) : String :=
  if n < 10 then "000" ++ toString n
  else if n < 100 then "00" ++ toString n
  else if n < 1000 then "0" ++ toString n
  else toString n

/-- Python's `str.isdigit()` on the ASCII fragment: non-empty and all
characters are decimal digits. -/
def pyIsDigit (s : String) : Bool :=
  s.data ≠ [] && s.data.all Char.isDigit

/-- `Name.__init__` (src/bot.py:23-27): requires a non-whitespace string,
stores the trimmed value. -/
def Name.init (s : String) : Except PyErr String :=
  if pyStrip s = "" then .error (.valueError "Name must be a non-empty string.")
  else .ok (pyStrip s)

/-- `Phone.__init__` (src/bot.py:29-38): requires non-whitespace; the trimmed
value must be all digits and of length 10.  On success the stored `value` is
the trimmed digit string. -/
def Phone.init (s : String) : Except PyErr String :=
  if pyStrip s = "" then .error (.valueError "Phone must be a non-empty string.")
  else if ¬ pyIsDigit (pyStrip s) then
    .error (.valueError "Phone number must contain only digits.")
  else if (pyStrip s).length ≠ 10 then
    .error (.valueError "Phone number must be 10 digits long.")
  else .ok (pyStrip s)

/-- Outcomes of `datetime.strptime(value, "%d.%m.%Y")`: a format mismatch
(message contains `does not match format`) or a construction failure with its
own message. -/
inductive StrpErr where
  | formatMismatch : StrpErr
  | constructionError : String → StrpErr
  deriving DecidableEq

/-- Split a character list at each dot, as Python `s.split('.')`: the
maximal dot-free chunks, in order (the empty string yields one empty
chunk). -/
def splitOnDot : List Char → List (List Char)
  | [] => [[]]
  | c :: rest =>
    match splitOnDot rest with
    | [] => [[]]
    | g :: gs => if c = '.' then [] :: g :: gs else (c :: g) :: gs

/-- The dot-separated components of a string. -/
def pySplitDots (s : String) : List (List Char) := splitOnDot s.data

/-- Numeric value of a digit chunk (most significant first). -/
def digitsVal (acc : ℕ) : List Char → ℕ
  | [] => acc
  | c :: rest => digitsVal (acc * 10 + (c.toNat - 48)) rest

/-- The number denoted by a non-empty all-digit chunk, else `none`. -/
def chunkToNat? (l : List Char) : Option ℕ :=
  if l ≠ [] ∧ l.all Char.isDigit then some (digitsVal 0 l) else none

/-- `datetime.strptime(s, "%d.%m.%Y")`.  CPython compiles this format to the
anchored regex `(3[01]|[12]\d|0[1-9]|[1-9])\.(1[0-2]|0[1-9]|[1-9])\.(\d\d\d\d)`
with nothing left over: day and month are one or two digits (valued 1..31 and
1..12), the year exactly four digits; the dots are literal, so the components
are precisely the dot-separated chunks of the input.  The matched numbers are
then passed to the `date` constructor, which checks the day against the month
length (`ValueError: day is out of range for month`) and the year against
`MINYEAR = 1`. -/
def pyStrptimeDmY (s : String) : Except StrpErr Date :=
  match pySplitDots s with
  | [ds, ms, ys] =>
    match chunkToNat? ds, chunkToNat? ms, chunkToNat? ys with
    | some d, some m, some y =>
      if ds.length ≤ 2 ∧ 1 ≤ d ∧ d ≤ 31 ∧ ms.length ≤ 2 ∧ 1 ≤ m ∧ m ≤ 12 ∧ ys.length = 4 then
        if 1 ≤ y ∧ d ≤ daysInMonth y m then .ok ⟨y, m, d⟩
        else if y < 1 then .error (.constructionError "year 0 is out of range")
        else .error (.constructionError "day is out of range for month")
      else .error .formatMismatch
    | _, _, _ => .error .formatMismatch
  | _ => .error .formatMismatch

/-- `Birthday.__init__` (src/bot.py:42-52): parses with
`strptime(value, "%d.%m.%Y")` (midnight datetime), then rejects year < 1900
and values after `datetime.now()`.  A format mismatch is re-raised as
`Invalid date format. Use DD.MM.YYYY`; other `ValueError`s are re-raised with
their own message.  `now` is the system clock at validation time. -/
def Birthday.init (now : DateTime) (s : String) : Except PyErr DateTime :=
  match pyStrptimeDmY s with
  | .error .formatMismatch => .error (.valueError "Invalid date format. Use DD.MM.YYYY")
  | .error (.constructionError m) => .error (.valueError m)
  | .ok d =>
    if d.year < 1900 ∨ dtLt now ⟨d, 0⟩ then
      .error (.valueError "Year must be between 1900 and the current year.")
    else .ok ⟨d, 0⟩

/-- A `Record` (src/bot.py:54-82): validated name, list of phone `value`
strings in insertion order, optional birthday datetime. -/
structure Record where
  name : String
  phones : List String
  birthday : Option DateTime
  deriving DecidableEq

/-- `Record.find_phone` (src/bot.py:64-70): rejects empty/whitespace input,
trims it, and returns it when some stored phone equals it, else `None`.
No digit or length check is performed. -/
def Record.find_phone (r : Record) (phone : String) : Except PyErr (Option String) :=
  if pyStrip phone = "" then .error (.valueError "Phone must be a non-empty string.")
  else
    let p := pyStrip phone
    if r.phones.any (fun q => q = p) then .ok (some p) else .ok none

/-- The loop of `Record.edit_phone` (src/bot.py:71-76) over the phone list:
at the first element equal to `old` the (already evaluated) validation result
of the new phone is consulted — `Phone(new_phone)` is constructed exactly
when a match is found, raising before any assignment if invalid; with no
match the loop falls through to `ValueError("Phone number not found.")`.
Returns the outcome and the phone list after the call. -/
def editPhoneAux (old : String) (newv : Except PyErr String) :
    List String → Except PyErr Unit × List String
  | [] => (.error (.valueError "Phone number not found."), [])
  | p :: rest =>
    if p = old then
      match newv with
      | .error e => (.error e, p :: rest)
      | .ok v => (.ok (), v :: rest)
    else
      let (res, rest') := editPhoneAux old newv rest
      (res, p :: rest')

/-- `Record.edit_phone` (src/bot.py:71-76): outcome plus the record state
after the call (the record is mutated in place in the source). -/
def Record.edit_phone (r : Record) (old new : String) : Except PyErr Unit × Record :=
  let (res, ph) := editPhoneAux old (Phone.init new) r.phones
  (res, { r with phones := ph })

/-- `Record.add_phone` (src/bot.py:59-60). -/
def Record.add_phone (r : Record) (s : String) : Except PyErr Record := do
  let v ← Phone.init s
  pure { r with phones := r.phones ++ [v] }

/-- `Record.add_birthday` (src/bot.py:77-78). -/
def Record.add_birthday (now : DateTime) (r : Record) (s : String) : Except PyErr Record := do
  let b ← Birthday.init now s
  pure { r with birthday := some b }

/-- `AddressBook` (src/bot.py:85): a `UserDict` keyed by the record's name.
Python dicts iterate in insertion order, so the data is an association list
with unique keys; assignment updates in place, deletion removes the key. -/
structure AddressBook where
  data : List (String × Record)
  deriving DecidableEq

/-- First value bound to `k`, as dict lookup. -/
def lookupKey (l : List (String × Record)) (k : String) : Option Record :=
  match l with
  | [] => none
  | (k', v) :: rest => if k' = k then some v else lookupKey rest k

/-- Dict assignment `d[k] = v`: overwrite in place, else append. -/
def dictInsert (l : List (String × Record)) (k : String) (v : Record) :
    List (String × Record) :=
  match l with
  | [] => [(k, v)]
  | (k', v') :: rest => if k' = k then (k, v) :: rest else (k', v') :: dictInsert rest k v

/-- Dict deletion `del d[k]`: the key is no longer present (on the unique-key
states reachable in the source this removes exactly one entry). -/
def eraseKey (l : List (String × Record)) (k : String) : List (String × Record) :=
  l.filter (fun kv => kv.1 ≠ k)

/-- `AddressBook.add_record` (src/bot.py:86-89) for an already-built record
(the `isinstance` guard always passes in the source's call sites). -/
def AddressBook.add_record (book : AddressBook) (r : Record) : AddressBook :=
  ⟨dictInsert book.data r.name r⟩

/-- `AddressBook.find` (src/bot.py:90-95): rejects empty/whitespace names,
returns the record stored under the trimmed name or `None`. -/
def AddressBook.find (book : AddressBook) (name : String) : Except PyErr (Option Record) :=
  if pyStrip name = "" then .error (.valueError "Name must be a non-empty string.")
  else .ok (lookupKey book.data (pyStrip name))

/-- `AddressBook.delete` (src/bot.py:96-103): rejects empty/whitespace names;
removes the trimmed name if present, else raises
`KeyError(f"Contact '{name}' not found.")`. -/
def AddressBook.delete (book : AddressBook) (name : String) : Except PyErr AddressBook :=
  if pyStrip name = "" then .error (.valueError "Name must be a non-empty string.")
  else
    let n := pyStrip name
    if (lookupKey book.data n).isSome then .ok ⟨eraseKey book.data n⟩
    else .error (.keyError ("Contact '" ++ n ++ "' not found."))

/-- The records of the book in iteration order (`self.data.values()`). -/
def AddressBook.records (book : AddressBook) : List Record :=
  book.data.map Prod.snd

/-- The congratulation date computed (and then discarded) inside
`get_upcoming_birthday` (src/bot.py:126-130): the projected birthday shifted
past the weekend — Saturday (weekday 5) by two days, Sunday (weekday 6) by
one day — then rendered with `strftime('%Y.%m.%d')`. -/
def congratulationStr (b : DateTime) : String :=
  let shifted :=
    if pyWeekday b.date = 5 then addDays b 2
    else if pyWeekday b.date = 6 then addDays b 1
    else b
  pad4 shifted.date.year ++ "." ++ pad2 shifted.date.month ++ "." ++ pad2 shifted.date.day

/-- The projection step of `get_upcoming_birthday` (src/bot.py:118-122):
`birthday.replace(year := today.year)`, bumped to `today.year + 1` when the
result is strictly before `today` (full `datetime` comparison). -/
def projectBirthday (today b : DateTime) : Except PyErr DateTime := do
  let b1 ← pyReplaceYear b today.date.year
  if dtLt b1 today then pyReplaceYear b1 (today.date.year + 1) else pure b1

/-- The loop of `get_upcoming_birthday` (src/bot.py:104-132) over the record
list, also carrying the `congratulation_date` string the source computes and
never uses.  Records without a birthday are skipped (`if not
user.birthday: continue`; the following `if not user.birthday.value` never
fires, a `datetime` being always truthy).  A `ValueError` from `replace`
propagates out of the whole call.  Inclusion: `days_until <= 7` with
`days_until = (birthday_this_year - today).days`. -/
def upcomingAux (today : DateTime) : List Record → Except PyErr (List (Record × String))
  | [] => .ok []
  | r :: rest =>
    match r.birthday with
    | none => upcomingAux today rest
    | some b => do
      let b2 ← projectBirthday today b
      let tail ← upcomingAux today rest
      if timedeltaDays b2 today ≤ 7 then
        .ok ((r, congratulationStr b2) :: tail)
      else
        .ok tail

/-- `AddressBook.get_upcoming_birthday` (src/bot.py:104-132) with the clock
`datetime.today()` as parameter `today`: the list of included records, in
insertion order. -/
def AddressBook.get_upcoming_birthday (book : AddressBook) (today : DateTime) :
    Except PyErr (List Record) :=
  (upcomingAux today book.records).map (·.map Prod.fst)

/-- One output line of the `birthdays` command handler `upcoming_birthdays`
(src/bot.py:246-253): `f"{record.name.value}: {birthday.strftime('%d.%m')}"`,
printed from the record's *stored* birthday (day and month only, no weekend
shift).  Included records always carry a birthday; the `none` branch is
unreachable. -/
def displayLine (r : Record) : String :=
  match r.birthday with
  | some b => r.name ++ ": " ++ pad2 b.date.day ++ "." ++ pad2 b.date.month
  | none => ""

/-- The lines printed by `upcoming_birthdays` (src/bot.py:246-253), one per
included record. -/
def upcoming_birthdays (book : AddressBook) (today : DateTime) :
    Except PyErr (List String) :=
  (book.get_upcoming_birthday today).map (·.map displayLine)

/-- `load_data` (src/bot.py:7-12) with the filesystem as an explicit map from
filename to the deserialized book: a missing file (`FileNotFoundError`)
yields a fresh `AddressBook()`. -/
def load_data (fs : String → Option AddressBook) (filename : String) : AddressBook :=
  match fs filename with
  | some book => book
  | none => ⟨[]⟩

/-- The filename `AddressBook.load` reads from its `args`: the first element
when present, else the default `addressbook.pkl` (src/bot.py:142-145). -/
def loadFilename (args : List String) : String :=
  match args with
  | [] => "addressbook.pkl"
  | a :: _ => a

/-- `AddressBook.load` (src/bot.py:141-155): filename from `args` (default
`addressbook.pkl`); on a missing file the user is prompted (`answer` models
the `input(...)` reply) — answering `y`/`Y` yields a fresh empty book,
anything else keeps the current book `self`. -/
def AddressBook.load (self : AddressBook) (args : List String)
    (fs : String → Option AddressBook) (answer : String) : AddressBook :=
  match fs (loadFilename args) with
  | some book => book
  | none => if pyLower answer = "y" then ⟨[]⟩ else self

/-- Count of occurrences of `x` in a list of phone strings. -/
def countOcc (x : String) : List String → ℕ
  | [] => 0
  | p :: rest => (if p = x then 1 else 0) + countOcc x rest

/-- The spec's projected birthday: the birthday's month/day placed in the
reference year, or in the next year when that date is strictly before the
reference date. -/
def specProjected (t : Date) (bm bd : ℕ) : Date :=
  if ordDate ⟨t.year, bm, bd⟩ < ordDate t then ⟨t.year + 1, bm, bd⟩
  else ⟨t.year, bm, bd⟩

/-- The spec's `days_until`: projected date minus reference date, in days. -/
def specDaysUntil (t : Date) (bm bd : ℕ) : ℤ :=
  (ordDate (specProjected t bm bd) : ℤ) - (ordDate t : ℤ)

/-- The claim's inclusion window for a stored birthday `b` against reference
date `t`: the projected birthday lies between the reference date and the
reference date plus `period_days = 7`, both inclusive. -/
def specInWindow (t : Date) (b : DateTime) : Bool :=
  0 ≤ specDaysUntil t b.date.month b.date.day && specDaysUntil t b.date.month b.date.day ≤ 7

/-- Claim C1 as stated: for every store and reference datetime, the query
(when it returns) includes exactly the records whose projected birthday lies
in the inclusive window `[reference, reference + 7]`. -/
def claimUpcomingWindow : Prop :=
  ∀ (book : AddressBook) (today : DateTime), validDT today →
    (∀ r ∈ book.records, ∀ b, r.birthday = some b → b.secs < 86400) →
    ∀ l, book.get_upcoming_birthday today = .ok l →
      ∀ rec, rec ∈ l ↔
        rec ∈ book.records ∧ ∃ b, rec.birthday = some b ∧ specInWindow today.date b = true

/-- The claim's strict `DD.MM.YYYY` reading: dot-separated two-digit day,
two-digit month, four-digit year denoting the date `d`. -/
def strictBirthdayString (s : String) (d : Date) : Prop :=
  ∃ ds ms ys, pySplitDots s = [ds, ms, ys] ∧
    chunkToNat? ds = some d.day ∧ ds.length = 2 ∧
    chunkToNat? ms = some d.month ∧ ms.length = 2 ∧
    chunkToNat? ys = some d.year ∧ ys.length = 4

/-- The relaxed pattern the source actually accepts: day and month written
with one or two digits, year with exactly four, dot-separated. -/
def relaxedBirthdayString (s : String) (d : Date) : Prop :=
  ∃ ds ms ys, pySplitDots s = [ds, ms, ys] ∧
    chunkToNat? ds = some d.day ∧ 1 ≤ ds.length ∧ ds.length ≤ 2 ∧
    chunkToNat? ms = some d.month ∧ 1 ≤ ms.length ∧ ms.length ≤ 2 ∧
    chunkToNat? ys = some d.year ∧ ys.length = 4

/-- Claim C4 as stated: strings in the strict `DD.MM.YYYY` pattern denoting a
valid date with year ≥ 1900 not after the current date are accepted; a string
not matching that pattern (or denoting no valid date), a year before 1900, or
a future date is rejected. -/
def claimBirthdayPattern : Prop :=
  ∀ (now : DateTime) (s : String), validDT now →
    (∀ d : Date, strictBirthdayString s d → validDate d → 1900 ≤ d.year →
      ordDate d ≤ ordDate now.date → ∃ dt, Birthday.init now s = .ok dt) ∧
    ((¬ ∃ d : Date, strictBirthdayString s d ∧ validDate d) →
      ∃ e, Birthday.init now s = .error e) ∧
    (∀ d : Date, strictBirthdayString s d → validDate d →
      (d.year < 1900 ∨ ordDate now.date < ordDate d) → ∃ e, Birthday.init now s = .error e)

/-- Claim C5 as stated: `edit_phone` with an absent old number fails with the
phone-not-found error; with a present old number and a valid new number,
`find_phone(new)` afterwards succeeds and `find_phone(old)` returns null. -/
def claimEditPhone : Prop :=
  ∀ (r : Record) (old new : String),
    (old ∉ r.phones →
      (r.edit_phone old new).1 = .error (.valueError "Phone number not found.")) ∧
    (old ∈ r.phones → ∀ v, Phone.init new = .ok v →
      (r.edit_phone old new).2.find_phone new = .ok (some v) ∧
      (r.edit_phone old new).2.find_phone old = .ok none)

/-- Claim C7 as stated: `find_phone` validates its input as a phone shape —
rejecting what is not exactly ten digits after trimming — and for valid
inputs returns the matching stored value or null. -/
def claimFindPhoneShape : Prop :=
  ∀ (r : Record) (s : String),
    (¬ ((pyStrip s).length = 10 ∧ pyIsDigit (pyStrip s) = true) →
      ∃ e, r.find_phone s = .error e) ∧
    ((pyStrip s).length = 10 ∧ pyIsDigit (pyStrip s) = true →
      r.find_phone s = .ok (if pyStrip s ∈ r.phones then some (pyStrip s) else none))

/-- Claim C8 as stated: every load operation given a filename naming no
existing file yields a fresh empty store (for both `load_data` and
`AddressBook.load`). -/
def claimLoadEmpty : Prop :=
  (∀ (fs : String → Option AddressBook) (filename : String),
    fs filename = none → load_data fs filename = (⟨[]⟩ : AddressBook)) ∧
  (∀ (self : AddressBook) (args : List String) (fs : String → Option AddressBook)
    (answer : String), fs (loadFilename args) = none →
      self.load args fs answer = (⟨[]⟩ : AddressBook))

/-- Fixture: a contact whose birthday month/day is June 15 (a Saturday in
2024). -/
def rAliceJun15 : Record := ⟨"Alice", ["1234567890"], some ⟨⟨1990, 6, 15⟩, 0⟩⟩

/-- Fixture: a book holding only `rAliceJun15`. -/
def bookAliceJun15 : AddressBook := ⟨[("Alice", rAliceJun15)]⟩

/-- Fixture: a contact whose birthday month/day is June 10. -/
def rAliceJun10 : Record := ⟨"Alice", ["1234567890"], some ⟨⟨1990, 6, 10⟩, 0⟩⟩

/-- Fixture: a book holding only `rAliceJun10`. -/
def bookAliceJun10 : AddressBook := ⟨[("Alice", rAliceJun10)]⟩

/-- Fixture: a contact born on February 29 of a leap year. -/
def rBobFeb29 : Record := ⟨"Bob", [], some ⟨⟨2000, 2, 29⟩, 0⟩⟩

/-- Fixture: a book holding only `rBobFeb29`. -/
def bookBobFeb29 : AddressBook := ⟨[("Bob", rBobFeb29)]⟩

/-- Fixture: the reference datetime 2024-06-10 00:00:00 (a Monday). -/
def midnightJun10 : DateTime := ⟨⟨2024, 6, 10⟩, 0⟩

/-- Fixture: the reference datetime 2024-06-10 12:00:00. -/
def noonJun10 : DateTime := ⟨⟨2024, 6, 10⟩, 43200⟩

/-- Fixture: the reference datetime 2025-06-10 00:00:00 (2025 is not a leap
year). -/
def midnightJun10y2025 : DateTime := ⟨⟨2025, 6, 10⟩, 0⟩

theorem isLeap_iff (y : ℕ) : isLeap y = true ↔ (y % 4 = 0 ∧ (y % 100 ≠ 0 ∨ y % 400 = 0)) := by
  simp [isLeap]

theorem ordDate_le_yearEnd (y m dd : ℕ) (h : validDate ⟨y, m, dd⟩) :
    ordDate ⟨y, m, dd⟩ ≤ ordDate ⟨y, 12, 31⟩ := by
  obtain ⟨hy, hm1, hm2, hd1, hd2⟩ := h
  simp only at hm1 hm2 hd1 hd2
  unfold daysInMonth at hd2
  unfold ordDate
  simp only
  have key : daysBeforeMonth (isLeap y) m + dd ≤ daysBeforeMonth (isLeap y) 12 + 31 := by
    set L := isLeap y with hL
    clear_value L
    interval_cases m <;> cases L <;>
      simp [daysBeforeMonth, monthLen] at hd2 ⊢ <;> omega
  omega

theorem yearStart_le_ordDate (y m dd : ℕ) (h : validDate ⟨y, m, dd⟩) :
    ordDate ⟨y, 1, 1⟩ ≤ ordDate ⟨y, m, dd⟩ := by
  obtain ⟨hy, hm1, hm2, hd1, hd2⟩ := h
  simp only at hm1 hm2 hd1 hd2
  unfold ordDate
  simp only [daysBeforeMonth]
  omega

set_option maxHeartbeats 1000000 in
theorem ordDate_jan1_succ (y : ℕ) (hy : 1 ≤ y) :
    ordDate ⟨y + 1, 1, 1⟩ = ordDate ⟨y, 12, 31⟩ + 1 := by
  have hiff := isLeap_iff y
  by_cases hLe : isLeap y = true
  · have harith := hiff.mp hLe
    simp [ordDate, daysBeforeMonth, hLe]
    omega
  · have hfalse : isLeap y = false := by simpa using hLe
    have harith : ¬ (y % 4 = 0 ∧ (y % 100 ≠ 0 ∨ y % 400 = 0)) := fun hh => hLe (hiff.mpr hh)
    simp [ordDate, daysBeforeMonth, hfalse]
    omega

theorem timedeltaDays_eq_ord_sub (p t : Date) (s : ℕ) (hs : s < 86400) :
    timedeltaDays ⟨p, s⟩ ⟨t, 0⟩ = (ordDate p : ℤ) - (ordDate t : ℤ) := by
  unfold timedeltaDays dtSecs
  simp only
  rw [show ((ordDate p * 86400 + s : ℕ) : ℤ) - ((ordDate t * 86400 + 0 : ℕ) : ℤ)
      = (s : ℤ) + ((ordDate p : ℤ) - ordDate t) * 86400 by push_cast; ring]
  rw [Int.add_mul_ediv_right _ _ (by norm_num : (86400 : ℤ) ≠ 0)]
  rw [Int.ediv_eq_zero_of_lt (by positivity) (by exact_mod_cast hs)]
  simp

theorem dtLt_midnight_iff (bd td : Date) (s : ℕ) (hs : s < 86400) :
    dtLt ⟨bd, s⟩ ⟨td, 0⟩ ↔ ordDate bd < ordDate td := by
  unfold dtLt dtSecs
  simp only
  omega

theorem pyReplaceYear_ok_iff (t : DateTime) (y : ℕ) (r : DateTime) :
    pyReplaceYear t y = .ok r ↔
      validDate ⟨y, t.date.month, t.date.day⟩ ∧ r = ⟨⟨y, t.date.month, t.date.day⟩, t.secs⟩ := by
  unfold pyReplaceYear
  split
  · simp_all [eq_comm]
  · simp_all

theorem projectBirthday_ok_spec (td : Date) (bdt b2 : DateTime)
    (htv : validDate td) (hbs : bdt.secs < 86400)
    (hp : projectBirthday ⟨td, 0⟩ bdt = .ok b2) :
    b2 = ⟨specProjected td bdt.date.month bdt.date.day, bdt.secs⟩ ∧
    validDate b2.date ∧
    (ordDate td : ℤ) ≤ (ordDate b2.date : ℤ) := by
  unfold projectBirthday at hp
  rcases h1 : pyReplaceYear bdt (DateTime.mk td 0).date.year with e | b1
  · rw [h1] at hp
    simp only [Bind.bind, Except.bind] at hp
    exact Except.noConfusion hp
  · rw [h1] at hp
    simp only [Bind.bind, Except.bind] at hp
    obtain ⟨hv1, hb1⟩ := (pyReplaceYear_ok_iff _ _ _).mp h1
    subst hb1
    simp only at hp hv1
    split at hp
    case isTrue hlt =>
      obtain ⟨hv2, hb2⟩ := (pyReplaceYear_ok_iff _ _ _).mp hp
      subst hb2
      simp only at hv2 ⊢
      have hord : ordDate ⟨td.year, bdt.date.month, bdt.date.day⟩ < ordDate td :=
        (dtLt_midnight_iff _ _ _ hbs).mp hlt
      refine ⟨?_, hv2, ?_⟩
      · unfold specProjected
        rw [if_pos hord]
      · have h2 : ordDate td ≤ ordDate ⟨td.year, 12, 31⟩ :=
          ordDate_le_yearEnd td.year td.month td.day htv
        have h3 := ordDate_jan1_succ td.year htv.1
        have h4 := yearStart_le_ordDate (td.year + 1) bdt.date.month bdt.date.day hv2
        omega
    case isFalse hnlt =>
      simp only [Pure.pure, Except.pure, Except.ok.injEq] at hp
      subst hp
      have hord : ¬ ordDate ⟨td.year, bdt.date.month, bdt.date.day⟩ < ordDate td :=
        fun hh => hnlt ((dtLt_midnight_iff _ _ _ hbs).mpr hh)
      refine ⟨?_, hv1, ?_⟩
      · unfold specProjected
        rw [if_neg hord]
      · simp only
        omega

theorem include_iff_specInWindow (td : Date) (bdt b2 : DateTime)
    (htv : validDate td) (hbs : bdt.secs < 86400)
    (hp : projectBirthday ⟨td, 0⟩ bdt = .ok b2) :
    (timedeltaDays b2 ⟨td, 0⟩ ≤ 7 ↔ specInWindow td bdt = true) := by
  obtain ⟨heq, hv, hge⟩ := projectBirthday_ok_spec td bdt b2 htv hbs hp
  subst heq
  rw [timedeltaDays_eq_ord_sub _ _ _ hbs]
  unfold specInWindow specDaysUntil
  simp only [Bool.and_eq_true, decide_eq_true_eq]
  dsimp only at hge ⊢
  omega

theorem upcomingAux_mem (today : DateTime) (ht0 : today.secs = 0)
    (htv : validDate today.date) :
    ∀ (rs : List Record) (l : List (Record × String)),
      (∀ r ∈ rs, ∀ b, r.birthday = some b → b.secs < 86400) →
      upcomingAux today rs = .ok l →
      ∀ rec, (rec ∈ l.map Prod.fst ↔
        rec ∈ rs ∧ ∃ b, rec.birthday = some b ∧ specInWindow today.date b = true) := by
  intro rs
  induction rs with
  | nil =>
    intro l _ hok rec
    unfold upcomingAux at hok
    simp only [Except.ok.injEq] at hok
    subst hok
    simp
  | cons r rest ih =>
    intro l hsecs hok rec
    unfold upcomingAux at hok
    rcases hb : r.birthday with _ | b
    · rw [hb] at hok
      have hiff := ih l (fun r' hr' => hsecs r' (List.mem_cons_of_mem r hr')) hok rec
      rw [hiff]
      constructor
      · rintro ⟨hmem, hw⟩
        exact ⟨List.mem_cons_of_mem r hmem, hw⟩
      · rintro ⟨hmem, b', hb', hw⟩
        rcases List.mem_cons.mp hmem with heq | hmem'
        · subst heq
          rw [hb] at hb'
          exact Option.noConfusion hb'
        · exact ⟨hmem', b', hb', hw⟩
    · rw [hb] at hok
      dsimp only at hok
      have hbs : b.secs < 86400 := hsecs r (List.mem_cons_self r rest) b hb
      rcases hp : projectBirthday today b with e | b2
      · rw [hp] at hok
        simp only [Bind.bind, Except.bind] at hok
        exact Except.noConfusion hok
      · rw [hp] at hok
        simp only [Bind.bind, Except.bind] at hok
        rcases ht : upcomingAux today rest with e | tl
        · rw [ht] at hok
          exact Except.noConfusion hok
        · rw [ht] at hok
          dsimp only at hok
          have htoday : today = ⟨today.date, 0⟩ := by
            obtain ⟨tdd, ts⟩ := today
            simp only at ht0
            rw [ht0]
          have hinc : (timedeltaDays b2 today ≤ 7 ↔ specInWindow today.date b = true) := by
            rw [htoday] at hp ⊢
            exact include_iff_specInWindow today.date b b2 htv hbs hp
          have hiff := ih tl (fun r' hr' => hsecs r' (List.mem_cons_of_mem r hr')) ht rec
          split at hok
          next hc =>
            simp only [Except.ok.injEq] at hok
            subst hok
            simp only [List.map_cons, List.mem_cons]
            constructor
            · rintro (heq | hmem)
              · subst heq
                exact ⟨Or.inl rfl, b, hb, hinc.mp hc⟩
              · obtain ⟨hm, hw⟩ := hiff.mp hmem
                exact ⟨Or.inr hm, hw⟩
            · rintro ⟨hmem, b', hb', hw⟩
              rcases hmem with heq | hmem'
              · exact Or.inl heq
              · exact Or.inr (hiff.mpr ⟨hmem', b', hb', hw⟩)
          next hc =>
            simp only [Except.ok.injEq] at hok
            subst hok
            rw [hiff]
            constructor
            · rintro ⟨hmem, hw⟩
              exact ⟨List.mem_cons_of_mem r hmem, hw⟩
            · rintro ⟨hmem, b', hb', hw⟩
              rcases List.mem_cons.mp hmem with heq | hmem'
              · subst heq
                rw [hb] at hb'
                injection hb' with hbb
                subst hbb
                exact absurd (hinc.mpr hw) hc
              · exact ⟨hmem', b', hb', hw⟩

/-- C1 (amended): when the reference datetime is exactly at midnight, the
upcoming-birthday query — whenever it returns — includes exactly the records
whose projected birthday lies in the inclusive window from the reference date
through reference date + 7 days. -/
theorem upcoming_window_midnight (book : AddressBook) (today : DateTime)
    (ht0 : today.secs = 0) (htv : validDT today)
    (hsecs : ∀ r ∈ book.records, ∀ b, r.birthday = some b → b.secs < 86400)
    (l : List Record) (hok : book.get_upcoming_birthday today = .ok l) (rec : Record) :
    rec ∈ l ↔
      rec ∈ book.records ∧ ∃ b, rec.birthday = some b ∧ specInWindow today.date b = true := by
  unfold AddressBook.get_upcoming_birthday at hok
  rcases ha : upcomingAux today book.records with e | l'
  · rw [ha] at hok
    exact Except.noConfusion hok
  · rw [ha] at hok
    simp only [Except.map, Except.ok.injEq] at hok
    subst hok
    exact upcomingAux_mem today ht0 htv.1 book.records l' hsecs ha rec

/-- Witness for C1 (amended) at a concrete store and reference date
2024-06-10 00:00: the contact with birthday June 15 is returned, and its
projected birthday lies in the window. -/
theorem upcoming_window_midnight_witness :
    rAliceJun15 ∈ [rAliceJun15] ↔ rAliceJun15 ∈ bookAliceJun15.records ∧
      ∃ b, rAliceJun15.birthday = some b ∧ specInWindow midnightJun10.date b = true :=
  upcoming_window_midnight bookAliceJun15 midnightJun10 rfl (by decide)
    (by
      intro r hr b hb
      have hreq : r = rAliceJun15 := by
        simpa [bookAliceJun15, AddressBook.records] using hr
      subst hreq
      rw [show rAliceJun15.birthday = some ⟨⟨1990, 6, 15⟩, 0⟩ from rfl] at hb
      cases hb
      decide)
    [rAliceJun15] (by decide) rAliceJun15

/-- C1 (counterexample): the claim as stated — quantified over every
reference datetime — is false.  At reference datetime 2024-06-10 12:00, a
contact whose birthday projects onto the reference date itself (days_until 0,
inside the window) is *not* returned: the code compares the midnight
projection against the full reference datetime and bumps it a year ahead. -/
theorem upcoming_window_not_exact : ¬ claimUpcomingWindow := by
  intro h
  have h2 := h bookAliceJun10 noonJun10 (by decide)
    (by
      intro r hr b hb
      have hreq : r = rAliceJun10 := by
        simpa [bookAliceJun10, AddressBook.records] using hr
      subst hreq
      rw [show rAliceJun10.birthday = some ⟨⟨1990, 6, 10⟩, 0⟩ from rfl] at hb
      cases hb
      decide)
    [] (by decide) rAliceJun10
  have hrhs : rAliceJun10 ∈ bookAliceJun10.records ∧
      ∃ b, rAliceJun10.birthday = some b ∧ specInWindow noonJun10.date b = true :=
    ⟨by decide, ⟨⟨1990, 6, 10⟩, 0⟩, rfl, by decide⟩
  exact absurd (h2.mpr hrhs) (List.not_mem_nil _)

/-- C2: in the code the weekend shift never reaches the output.  At reference
date 2024-06-10 (midnight) with a contact whose projected birthday 2024-06-15
is a Saturday: the query includes the contact and internally computes the
shifted congratulation string `2024.06.17` (the following Monday), but the
`birthdays` command prints the *unshifted* stored birthday `15.06` — the
shifted date is assigned to a local variable and discarded. -/
theorem upcoming_display_unshifted :
    pyWeekday ⟨2024, 6, 15⟩ = 5 ∧
    upcomingAux midnightJun10 bookAliceJun15.records = .ok [(rAliceJun15, "2024.06.17")] ∧
    upcoming_birthdays bookAliceJun15 midnightJun10 = .ok ["Alice: 15.06"] :=
  ⟨by decide, by decide, by decide⟩

/-- C10: the query raises on a leap-day birthday.  `29.02.2000` passes
birthday validation (reference clock 2025-06-10), yet
`get_upcoming_birthday` with that stored birthday raises
`ValueError("day is out of range for month")` from
`birthday.replace(year := 2025)`, 2025 not being a leap year. -/
theorem upcoming_raises_feb29 :
    Birthday.init midnightJun10y2025 "29.02.2000" = .ok ⟨⟨2000, 2, 29⟩, 0⟩ ∧
    bookBobFeb29.get_upcoming_birthday midnightJun10y2025 =
      .error (.valueError "day is out of range for month") :=
  ⟨by decide, by decide⟩

theorem length_ne_ten_of_empty (v : String) (h : v = "") : v.length ≠ 10 := by
  subst h
  decide

theorem data_ne_nil_of_length_ten (v : String) (h : v.length = 10) : v.data ≠ [] := by
  intro hh
  rw [show v.length = v.data.length from rfl, hh] at h
  simp at h

/-- C3: phone validation accepts exactly the strings whose trimmed value is
ten ASCII digits, returning that trimmed digit string, and fails on every
other input (a non-digit among the trimmed characters, or a trimmed length
other than ten). -/
theorem phone_validation_round_trip (s : String) :
    ((pyStrip s).length = 10 ∧ (pyStrip s).data.all Char.isDigit = true →
      Phone.init s = .ok (pyStrip s)) ∧
    (¬ ((pyStrip s).length = 10 ∧ (pyStrip s).data.all Char.isDigit = true) →
      ∃ e, Phone.init s = .error e) := by
  unfold Phone.init
  constructor
  · rintro ⟨hlen, hdig⟩
    have hne : pyStrip s ≠ "" := fun hh => length_ne_ten_of_empty _ hh hlen
    have hdigit : pyIsDigit (pyStrip s) = true := by
      unfold pyIsDigit
      simp only [Bool.and_eq_true, decide_eq_true_eq]
      exact ⟨data_ne_nil_of_length_ten _ hlen, hdig⟩
    rw [if_neg hne, if_neg (not_not_intro hdigit), if_neg (by omega : ¬ (pyStrip s).length ≠ 10)]
  · intro hnot
    by_cases h1 : pyStrip s = ""
    · rw [if_pos h1]
      exact ⟨_, rfl⟩
    · rw [if_neg h1]
      by_cases h2 : pyIsDigit (pyStrip s) = true
      · have h3 : (pyStrip s).length ≠ 10 := by
          intro hh
          apply hnot
          refine ⟨hh, ?_⟩
          unfold pyIsDigit at h2
          simp only [Bool.and_eq_true, decide_eq_true_eq] at h2
          exact h2.2
        rw [if_neg (not_not_intro h2), if_pos h3]
        exact ⟨_, rfl⟩
      · rw [if_pos h2]
        exact ⟨_, rfl⟩

/-- Witness for C3: the ten-digit string round-trips; a short string with a
letter fails. -/
theorem phone_validation_round_trip_witness :
    Phone.init "1234567890" = .ok (pyStrip "1234567890") ∧
    (∃ e, Phone.init "123abc" = .error e) :=
  ⟨(phone_validation_round_trip "1234567890").1 (by decide),
   (phone_validation_round_trip "123abc").2 (by decide)⟩

theorem editPhoneAux_cons_ne (old : String) (nv : Except PyErr String) (p : String)
    (l : List String) (hne : ¬ p = old) :
    editPhoneAux old nv (p :: l) =
      ((editPhoneAux old nv l).1, p :: (editPhoneAux old nv l).2) := by
  conv_lhs => unfold editPhoneAux
  rw [if_neg hne]

theorem editPhoneAux_cons_eq_ok (old v p : String) (l : List String) (heq : p = old) :
    editPhoneAux old (.ok v) (p :: l) = (.ok (), v :: l) := by
  unfold editPhoneAux
  rw [if_pos heq]

theorem editPhoneAux_cons_eq_err (old p : String) (e : PyErr) (l : List String)
    (heq : p = old) :
    editPhoneAux old (.error e) (p :: l) = (.error e, p :: l) := by
  unfold editPhoneAux
  rw [if_pos heq]

theorem editPhoneAux_invalid (old : String) (e : PyErr) :
    ∀ l : List String, (editPhoneAux old (.error e) l).2 = l ∧
      ∃ e', (editPhoneAux old (.error e) l).1 = .error e' := by
  intro l
  induction l with
  | nil => exact ⟨rfl, _, rfl⟩
  | cons p rest ih =>
    by_cases hp : p = old
    · rw [editPhoneAux_cons_eq_err old p e rest hp]
      exact ⟨rfl, e, rfl⟩
    · rw [editPhoneAux_cons_ne old _ p rest hp]
      exact ⟨by rw [ih.1], ih.2⟩

/-- C9: when the new phone fails validation, `edit_phone` raises (either the
phone-not-found error or the validation error) and the record's phone list is
left exactly as it was. -/
theorem edit_phone_invalid_keeps_record (r : Record) (old new : String) (e : PyErr)
    (h : Phone.init new = .error e) :
    (∃ e', (r.edit_phone old new).1 = .error e') ∧ (r.edit_phone old new).2 = r := by
  unfold Record.edit_phone
  rw [h]
  obtain ⟨h2, e', h1⟩ := editPhoneAux_invalid old e r.phones
  rcases hx : editPhoneAux old (.error e) r.phones with ⟨res, ph⟩
  rw [hx] at h1 h2
  dsimp only at h1 h2 ⊢
  subst h2
  exact ⟨⟨e', h1⟩, rfl⟩

/-- Witness for C9 at a concrete record and invalid new number. -/
theorem edit_phone_invalid_keeps_record_witness :
    (∃ e', ((⟨"A", ["1234567890"], none⟩ : Record).edit_phone "1234567890" "12x").1
      = .error e') ∧
    ((⟨"A", ["1234567890"], none⟩ : Record).edit_phone "1234567890" "12x").2
      = ⟨"A", ["1234567890"], none⟩ :=
  edit_phone_invalid_keeps_record ⟨"A", ["1234567890"], none⟩ "1234567890" "12x"
    (.valueError "Phone number must contain only digits.") (by decide)

theorem countOcc_zero_not_mem (x : String) :
    ∀ l : List String, countOcc x l = 0 → x ∉ l := by
  intro l
  induction l with
  | nil => intro _ h; exact List.not_mem_nil _ h
  | cons p rest ih =>
    intro hc hmem
    unfold countOcc at hc
    rcases List.mem_cons.mp hmem with heq | hmem'
    · rw [if_pos heq.symm] at hc
      omega
    · by_cases hp : p = x
      · rw [if_pos hp] at hc; omega
      · rw [if_neg hp] at hc
        exact ih (by omega) hmem'

theorem countOcc_one_mem (x : String) :
    ∀ l : List String, countOcc x l = 1 → x ∈ l := by
  intro l
  induction l with
  | nil => intro h; unfold countOcc at h; omega
  | cons p rest ih =>
    intro hc
    unfold countOcc at hc
    by_cases hp : p = x
    · exact hp ▸ List.mem_cons_self p rest
    · rw [if_neg hp] at hc
      exact List.mem_cons_of_mem p (ih (by omega))

theorem editPhoneAux_not_mem (old : String) (nv : Except PyErr String) :
    ∀ l : List String, old ∉ l →
      (editPhoneAux old nv l).1 = .error (.valueError "Phone number not found.") ∧
      (editPhoneAux old nv l).2 = l := by
  intro l
  induction l with
  | nil => exact fun _ => ⟨rfl, rfl⟩
  | cons p rest ih =>
    intro hmem
    have hp : ¬ p = old := fun hh => hmem (hh ▸ List.mem_cons_self p rest)
    rw [editPhoneAux_cons_ne old nv p rest hp]
    obtain ⟨h1, h2⟩ := ih (fun hh => hmem (List.mem_cons_of_mem p hh))
    exact ⟨h1, by rw [h2]⟩

theorem editPhoneAux_replace (old v : String) (hne : v ≠ old) :
    ∀ l : List String, countOcc old l = 1 →
      (editPhoneAux old (.ok v) l).1 = .ok () ∧
      v ∈ (editPhoneAux old (.ok v) l).2 ∧
      countOcc old (editPhoneAux old (.ok v) l).2 = 0 := by
  intro l
  induction l with
  | nil => intro h; unfold countOcc at h; omega
  | cons p rest ih =>
    intro hc
    by_cases hp : p = old
    · rw [editPhoneAux_cons_eq_ok old v p rest hp]
      have hrest : countOcc old rest = 0 := by
        unfold countOcc at hc
        rw [if_pos hp] at hc
        omega
      refine ⟨rfl, List.mem_cons_self v rest, ?_⟩
      unfold countOcc
      rw [if_neg hne]
      omega
    · rw [editPhoneAux_cons_ne old _ p rest hp]
      have hc' : countOcc old rest = 1 := by
        unfold countOcc at hc
        rw [if_neg hp] at hc
        omega
      obtain ⟨h1, h2, h3⟩ := ih hc'
      refine ⟨h1, List.mem_cons_of_mem p h2, ?_⟩
      unfold countOcc
      rw [if_neg hp]
      omega

theorem list_any_eq_iff_mem (l : List String) (p : String) :
    l.any (fun q => q = p) = true ↔ p ∈ l := by
  rw [List.any_eq_true]
  constructor
  · rintro ⟨x, hx, hxe⟩
    have hxp : x = p := of_decide_eq_true hxe
    exact hxp ▸ hx
  · intro h
    exact ⟨p, h, by simp⟩

theorem find_phone_eq (r : Record) (s : String) (hne : pyStrip s ≠ "") :
    r.find_phone s = .ok (if pyStrip s ∈ r.phones then some (pyStrip s) else none) := by
  unfold Record.find_phone
  rw [if_neg hne]
  by_cases hm : pyStrip s ∈ r.phones
  · rw [if_pos ((list_any_eq_iff_mem _ _).mpr hm), if_pos hm]
  · rw [if_neg (fun hh => hm ((list_any_eq_iff_mem _ _).mp hh)), if_neg hm]

theorem phone_init_ok_facts (s v : String) (h : Phone.init s = .ok v) :
    v = pyStrip s ∧ v.length = 10 ∧ pyIsDigit v = true := by
  unfold Phone.init at h
  split at h
  · exact Except.noConfusion h
  split at h
  · exact Except.noConfusion h
  split at h
  · exact Except.noConfusion h
  next h1 h2 h3 =>
    simp only [Except.ok.injEq] at h
    subst h
    refine ⟨rfl, by omega, by simpa using h2⟩

/-- C5 (amended): `edit_phone` with an absent old number fails with
`Phone number not found.`; with an old number occurring *exactly once* among
the record's (validated, hence trimmed and non-empty) phones and a valid new
number *different from the old one*, the edit succeeds, `find_phone(new)`
afterwards returns the new value and `find_phone(old)` returns null.  (Only
the first occurrence is replaced, so a duplicated old number survives an
edit, and an edit to the same value keeps it findable.) -/
theorem edit_phone_spec (r : Record) (old new : String) :
    (old ∉ r.phones →
      (r.edit_phone old new).1 = .error (.valueError "Phone number not found.")) ∧
    (countOcc old r.phones = 1 →
      (∀ p ∈ r.phones, pyStrip p = p ∧ p ≠ "") →
      ∀ v, Phone.init new = .ok v → v ≠ old →
        (r.edit_phone old new).1 = .ok () ∧
        (r.edit_phone old new).2.find_phone new = .ok (some v) ∧
        (r.edit_phone old new).2.find_phone old = .ok none) := by
  constructor
  · intro hmem
    unfold Record.edit_phone
    rcases hx : editPhoneAux old (Phone.init new) r.phones with ⟨res, ph⟩
    obtain ⟨h1, _⟩ := editPhoneAux_not_mem old (Phone.init new) r.phones hmem
    rw [hx] at h1
    exact h1
  · intro hcount hval v hv hne
    obtain ⟨hvs, hvlen, hvdig⟩ := phone_init_ok_facts new v hv
    unfold Record.edit_phone
    rw [hv]
    rcases hx : editPhoneAux old (Except.ok v) r.phones with ⟨res, ph⟩
    obtain ⟨h1, h2, h3⟩ := editPhoneAux_replace old v hne r.phones hcount
    rw [hx] at h1 h2 h3
    dsimp only at h1 h2 h3 ⊢
    refine ⟨h1, ?_, ?_⟩
    · have hnew_ne : pyStrip new ≠ "" := by
        rw [← hvs]
        intro hh
        rw [hh] at hvlen
        simp at hvlen
      rw [find_phone_eq _ new hnew_ne, ← hvs]
      rw [if_pos h2]
    · have hold_mem : old ∈ r.phones := countOcc_one_mem old r.phones hcount
      obtain ⟨holds, holdne⟩ := hval old hold_mem
      have hold_ne : pyStrip old ≠ "" := by rw [holds]; exact holdne
      rw [find_phone_eq _ old hold_ne]
      rw [holds]
      rw [if_neg (countOcc_zero_not_mem old ph h3)]

/-- Witness for C5 (amended) at a concrete one-phone record. -/
theorem edit_phone_spec_witness :
    ((⟨"A", ["1234567890"], none⟩ : Record).edit_phone "1234567890" "0987654321").1
      = .ok () ∧
    ((⟨"A", ["1234567890"], none⟩ : Record).edit_phone "1234567890"
      "0987654321").2.find_phone "0987654321" = .ok (some "0987654321") ∧
    ((⟨"A", ["1234567890"], none⟩ : Record).edit_phone "1234567890"
      "0987654321").2.find_phone "1234567890" = .ok none :=
  (edit_phone_spec ⟨"A", ["1234567890"], none⟩ "1234567890" "0987654321").2
    (by decide) (by decide) "0987654321" (by decide) (by decide)

/-- C5 (counterexample): with the old number stored twice, `edit_phone`
replaces only the first occurrence, and `find_phone(old)` still succeeds
afterwards — the claim that it returns null is false as stated. -/
theorem edit_phone_duplicate_old_survives : ¬ claimEditPhone := by
  intro h
  have h2 := (h ⟨"A", ["1234567890", "1234567890"], none⟩ "1234567890" "0987654321").2
    (by decide) "0987654321" (by decide)
  have heval : ((⟨"A", ["1234567890", "1234567890"], none⟩ : Record).edit_phone
      "1234567890" "0987654321").2.find_phone "1234567890" = .ok (some "1234567890") := by
    decide
  have hcontra := heval.symm.trans h2.2
  simp at hcontra

theorem lookupKey_eraseKey (l : List (String × Record)) (n : String) :
    lookupKey (eraseKey l n) n = none := by
  induction l with
  | nil => rfl
  | cons kv rest ih =>
    unfold eraseKey at ih ⊢
    rw [List.filter_cons]
    by_cases hk : kv.1 = n
    · rw [if_neg (by simpa using hk)]
      exact ih
    · rw [if_pos (by simpa using hk)]
      unfold lookupKey
      rw [if_neg hk]
      exact ih

/-- C6: deleting an absent (trimmed, non-empty) name raises the
contact-not-found `KeyError`; deleting a present name succeeds and a
subsequent `find` of that name returns null. -/
theorem delete_then_find (book : AddressBook) (name : String)
    (h1 : pyStrip name = name) (h2 : name ≠ "") :
    (lookupKey book.data name = none →
      book.delete name = .error (.keyError ("Contact '" ++ name ++ "' not found."))) ∧
    (∀ rcd, lookupKey book.data name = some rcd →
      ∃ book', book.delete name = .ok book' ∧ book'.find name = .ok none) := by
  unfold AddressBook.delete
  rw [h1, if_neg h2]
  dsimp only
  constructor
  · intro habs
    rw [habs]
    simp
  · intro rcd hsome
    refine ⟨⟨eraseKey book.data name⟩, ?_, ?_⟩
    · rw [hsome]
      simp
    · unfold AddressBook.find
      rw [h1, if_neg h2]
      rw [lookupKey_eraseKey]

/-- Witness for C6: deleting a present contact then finding it yields null;
deleting from the empty book raises `KeyError`. -/
theorem delete_then_find_witness :
    (∃ book', (⟨[("Alice", rAliceJun15)]⟩ : AddressBook).delete "Alice" = .ok book' ∧
      book'.find "Alice" = .ok none) ∧
    (⟨[]⟩ : AddressBook).delete "Bob" =
      .error (.keyError ("Contact '" ++ "Bob" ++ "' not found.")) :=
  ⟨(delete_then_find ⟨[("Alice", rAliceJun15)]⟩ "Alice" (by decide) (by decide)).2
      rAliceJun15 (by decide),
   (delete_then_find ⟨[]⟩ "Bob" (by decide) (by decide)).1 rfl⟩

/-- C7 (amended): `find_phone` performs no phone-shape validation — it
rejects only empty/whitespace input; for any other input it returns the
trimmed input when it equals one of the record's phones, else null. -/
theorem find_phone_no_shape_check (r : Record) (s : String) :
    (pyStrip s = "" →
      r.find_phone s = .error (.valueError "Phone must be a non-empty string.")) ∧
    (pyStrip s ≠ "" →
      r.find_phone s = .ok (if pyStrip s ∈ r.phones then some (pyStrip s) else none)) := by
  constructor
  · intro h
    unfold Record.find_phone
    rw [if_pos h]
  · intro h
    exact find_phone_eq r s h

/-- Witness for C7 (amended): whitespace input is rejected; a stored number
is found. -/
theorem find_phone_no_shape_check_witness :
    (⟨"A", ["1234567890"], none⟩ : Record).find_phone "   " =
      .error (.valueError "Phone must be a non-empty string.") ∧
    (⟨"A", ["1234567890"], none⟩ : Record).find_phone "1234567890" =
      .ok (if pyStrip "1234567890" ∈ (⟨"A", ["1234567890"], none⟩ : Record).phones
        then some (pyStrip "1234567890") else none) :=
  ⟨(find_phone_no_shape_check ⟨"A", ["1234567890"], none⟩ "   ").1 (by decide),
   (find_phone_no_shape_check ⟨"A", ["1234567890"], none⟩ "1234567890").2 (by decide)⟩

/-- C7 (counterexample): `find_phone` does not reject a five-digit input —
it returns null successfully instead of failing validation, so the claim
that inputs other than ten digits are rejected is false. -/
theorem find_phone_accepts_nonphone : ¬ claimFindPhoneShape := by
  intro h
  have h2 := (h ⟨"A", ["1234567890"], none⟩ "12345").1 (by decide)
  obtain ⟨e, he⟩ := h2
  have heval : (⟨"A", ["1234567890"], none⟩ : Record).find_phone "12345" = .ok none := by
    decide
  rw [heval] at he
  exact Except.noConfusion he

/-- C8 (amended): `load_data` on a missing file yields a fresh empty store;
the interactive `AddressBook.load` on a missing file yields a fresh empty
store only when the user answers `y`/`Y`, and otherwise keeps the current
store. -/
theorem load_missing_file (fs : String → Option AddressBook) (filename : String)
    (self : AddressBook) (args : List String) (answer : String) :
    (fs filename = none → load_data fs filename = (⟨[]⟩ : AddressBook)) ∧
    (fs (loadFilename args) = none → pyLower answer = "y" →
      self.load args fs answer = (⟨[]⟩ : AddressBook)) ∧
    (fs (loadFilename args) = none → pyLower answer ≠ "y" →
      self.load args fs answer = self) := by
  refine ⟨?_, ?_, ?_⟩
  · intro h
    unfold load_data
    rw [h]
  · intro h hy
    unfold AddressBook.load
    rw [h]
    simp only [if_pos hy]
  · intro h hy
    unfold AddressBook.load
    rw [h]
    simp only [if_neg hy]

/-- Witness for C8 (amended) with an empty filesystem. -/
theorem load_missing_file_witness :
    load_data (fun _ => none) "addressbook.pkl" = (⟨[]⟩ : AddressBook) ∧
    bookAliceJun15.load [] (fun _ => none) "Y" = (⟨[]⟩ : AddressBook) ∧
    bookAliceJun15.load [] (fun _ => none) "n" = bookAliceJun15 :=
  ⟨(load_missing_file (fun _ => none) "addressbook.pkl" bookAliceJun15 [] "Y").1 rfl,
   (load_missing_file (fun _ => none) "addressbook.pkl" bookAliceJun15 [] "Y").2.1
     rfl (by decide),
   (load_missing_file (fun _ => none) "addressbook.pkl" bookAliceJun15 [] "n").2.2
     rfl (by decide)⟩

/-- C8 (counterexample): not every load operation on a missing file yields a
fresh empty store — `AddressBook.load` with the user answering `n` keeps the
current (non-empty) book. -/
theorem load_missing_keeps_book : ¬ claimLoadEmpty := by
  intro h
  have h2 := h.2 bookAliceJun15 [] (fun _ => none) "n" rfl
  have heval : bookAliceJun15.load [] (fun _ => none) "n" = bookAliceJun15 := rfl
  rw [heval] at h2
  exact absurd h2 (by decide)

theorem monthLen_le_31 (L : Bool) (m : ℕ) : monthLen L m ≤ 31 := by
  unfold monthLen
  split <;> try omega
  split <;> omega

theorem chunkToNat_some_facts (l : List Char) (n : ℕ) (h : chunkToNat? l = some n) :
    l ≠ [] ∧ l.all Char.isDigit = true ∧ digitsVal 0 l = n := by
  unfold chunkToNat? at h
  split at h
  · next hc =>
    simp only [Option.some.injEq] at h
    exact ⟨hc.1, hc.2, h⟩
  · exact Option.noConfusion h

theorem chunkToNat_length_pos (l : List Char) (n : ℕ) (h : chunkToNat? l = some n) :
    1 ≤ l.length := by
  obtain ⟨hne, _, _⟩ := chunkToNat_some_facts l n h
  cases l with
  | nil => exact absurd rfl hne
  | cons c cs => simp

theorem pyStrptimeDmY_ok_iff (s : String) (d : Date) :
    pyStrptimeDmY s = .ok d ↔ relaxedBirthdayString s d ∧ validDate d := by
  unfold pyStrptimeDmY relaxedBirthdayString
  rcases hsp : pySplitDots s with _ | ⟨ds, _ | ⟨ms, _ | ⟨ys, _ | ⟨a, tail⟩⟩⟩⟩
  · constructor
    · intro h
      exact Except.noConfusion h
    · rintro ⟨⟨ds', ms', ys', hsplit, _⟩, _⟩
      exact List.noConfusion hsplit
  · constructor
    · intro h
      exact Except.noConfusion h
    · rintro ⟨⟨ds', ms', ys', hsplit, _⟩, _⟩
      simp at hsplit
  · constructor
    · intro h
      exact Except.noConfusion h
    · rintro ⟨⟨ds', ms', ys', hsplit, _⟩, _⟩
      simp at hsplit
  · dsimp only
    rcases hcd : chunkToNat? ds with _ | dd
    · constructor
      · intro h
        exact Except.noConfusion h
      · rintro ⟨⟨ds', ms', ys', hsplit, hd, _⟩, _⟩
        simp only [List.cons.injEq, and_true] at hsplit
        obtain ⟨h1, h2, h3⟩ := hsplit
        subst h1
        rw [hcd] at hd
        exact Option.noConfusion hd
    · rcases hcm : chunkToNat? ms with _ | mm
      · constructor
        · intro h
          exact Except.noConfusion h
        · rintro ⟨⟨ds', ms', ys', hsplit, _, _, _, hm, _⟩, _⟩
          simp only [List.cons.injEq, and_true] at hsplit
          obtain ⟨h1, h2, h3⟩ := hsplit
          subst h2
          rw [hcm] at hm
          exact Option.noConfusion hm
      · rcases hcy : chunkToNat? ys with _ | yy
        · constructor
          · intro h
            exact Except.noConfusion h
          · rintro ⟨⟨ds', ms', ys', hsplit, _, _, _, _, _, _, hy, _⟩, _⟩
            simp only [List.cons.injEq, and_true] at hsplit
            obtain ⟨h1, h2, h3⟩ := hsplit
            subst h3
            rw [hcy] at hy
            exact Option.noConfusion hy
        · dsimp only
          by_cases hA : ds.length ≤ 2 ∧ 1 ≤ dd ∧ dd ≤ 31 ∧ ms.length ≤ 2 ∧ 1 ≤ mm ∧
              mm ≤ 12 ∧ ys.length = 4
          · rw [if_pos hA]
            by_cases hB : 1 ≤ yy ∧ dd ≤ daysInMonth yy mm
            · rw [if_pos hB]
              constructor
              · intro h
                simp only [Except.ok.injEq] at h
                subst h
                refine ⟨⟨ds, ms, ys, rfl, hcd, chunkToNat_length_pos ds dd hcd, hA.1,
                  hcm, chunkToNat_length_pos ms mm hcm, hA.2.2.2.1,
                  hcy, hA.2.2.2.2.2.2⟩, ?_⟩
                exact ⟨hB.1, hA.2.2.2.2.1, hA.2.2.2.2.2.1, hA.2.1, hB.2⟩
              · rintro ⟨⟨ds', ms', ys', hsplit, hd, _, _, hm, _, _, hy, _⟩, hv⟩
                simp only [List.cons.injEq, and_true] at hsplit
                obtain ⟨h1, h2, h3⟩ := hsplit
                subst h1
                subst h2
                subst h3
                rw [hcd] at hd
                rw [hcm] at hm
                rw [hcy] at hy
                simp only [Option.some.injEq] at hd hm hy
                congr 1
                obtain ⟨yv, mv, dv⟩ := d
                simp only at hd hm hy
                rw [← hd, ← hm, ← hy]
            · rw [if_neg hB]
              constructor
              · intro h
                split at h <;> exact Except.noConfusion h
              · rintro ⟨⟨ds', ms', ys', hsplit, hd, _, _, hm, _, _, hy, _⟩, hv⟩
                simp only [List.cons.injEq, and_true] at hsplit
                obtain ⟨h1, h2, h3⟩ := hsplit
                subst h1
                subst h2
                subst h3
                rw [hcd] at hd
                rw [hcm] at hm
                rw [hcy] at hy
                simp only [Option.some.injEq] at hd hm hy
                obtain ⟨hv1, hv2, hv3, hv4, hv5⟩ := hv
                exact absurd ⟨by omega, by rw [hd, hy, hm]; exact hv5⟩ hB
          · rw [if_neg hA]
            constructor
            · intro h
              exact Except.noConfusion h
            · rintro ⟨⟨ds', ms', ys', hsplit, hd, hdl1, hdl2, hm, hml1, hml2, hy, hyl⟩, hv⟩
              simp only [List.cons.injEq, and_true] at hsplit
              obtain ⟨h1, h2, h3⟩ := hsplit
              subst h1
              subst h2
              subst h3
              rw [hcd] at hd
              rw [hcm] at hm
              rw [hcy] at hy
              simp only [Option.some.injEq] at hd hm hy
              obtain ⟨hv1, hv2, hv3, hv4, hv5⟩ := hv
              have hd31 : d.day ≤ 31 :=
                le_trans hv5 (by unfold daysInMonth; exact monthLen_le_31 _ _)
              exact absurd ⟨hdl2, by omega, by omega, hml2, by omega, by omega, hyl⟩ hA
  · constructor
    · intro h
      exact Except.noConfusion h
    · rintro ⟨⟨ds', ms', ys', hsplit, _⟩, _⟩
      simp at hsplit

/-- C4 (amended): birthday validation accepts exactly the dot-separated
strings with a one- or two-digit day, a one- or two-digit month and a
four-digit year (the `%d.%m.%Y` pattern is laxer than the spec's strict
DD.MM.YYYY) denoting a valid calendar date with year ≥ 1900 that is not
after the current date (at day granularity); everything else — malformed
strings, impossible dates, years before 1900, future dates — is rejected. -/
theorem birthday_validation_relaxed (now : DateTime) (s : String) (d : Date)
    (hns : now.secs < 86400) :
    Birthday.init now s = .ok ⟨d, 0⟩ ↔
      relaxedBirthdayString s d ∧ validDate d ∧ 1900 ≤ d.year ∧
        ordDate d ≤ ordDate now.date := by
  unfold Birthday.init
  rcases hps : pyStrptimeDmY s with err | pd
  · constructor
    · intro h
      cases err <;> exact Except.noConfusion h
    · rintro ⟨hrel, hval, _, _⟩
      have heq := (pyStrptimeDmY_ok_iff s d).mpr ⟨hrel, hval⟩
      rw [hps] at heq
      exact Except.noConfusion heq
  · dsimp only
    by_cases hc : pd.year < 1900 ∨ dtLt now ⟨pd, 0⟩
    · rw [if_pos hc]
      constructor
      · intro h
        exact Except.noConfusion h
      · rintro ⟨hrel, hval, h1900, hord⟩
        have heq := (pyStrptimeDmY_ok_iff s d).mpr ⟨hrel, hval⟩
        have hpd : pd = d := by
          have := hps.symm.trans heq
          simpa using this
        subst hpd
        rcases hc with hy | hlt
        · omega
        · unfold dtLt dtSecs at hlt
          simp only at hlt
          omega
    · rw [if_neg hc]
      push_neg at hc
      obtain ⟨h1900, hnlt⟩ := hc
      constructor
      · intro h
        simp only [Except.ok.injEq, DateTime.mk.injEq] at h
        obtain ⟨hpd, -⟩ := h
        subst hpd
        obtain ⟨hrel, hval⟩ := (pyStrptimeDmY_ok_iff s _).mp hps
        refine ⟨hrel, hval, by omega, ?_⟩
        unfold dtLt dtSecs at hnlt
        simp only [not_lt] at hnlt
        omega
      · rintro ⟨hrel, hval, h1900', hord⟩
        have heq := (pyStrptimeDmY_ok_iff s d).mpr ⟨hrel, hval⟩
        have hpd : pd = d := by
          have := hps.symm.trans heq
          simpa using this
        subst hpd
        rfl

/-- Witness for C4 (amended) at a concrete clock and input. -/
theorem birthday_validation_relaxed_witness :
    Birthday.init midnightJun10 "24.12.1990" = .ok ⟨⟨1990, 12, 24⟩, 0⟩ ↔
      relaxedBirthdayString "24.12.1990" ⟨1990, 12, 24⟩ ∧ validDate ⟨1990, 12, 24⟩ ∧
        1900 ≤ (⟨1990, 12, 24⟩ : Date).year ∧
        ordDate ⟨1990, 12, 24⟩ ≤ ordDate midnightJun10.date :=
  birthday_validation_relaxed midnightJun10 "24.12.1990" ⟨1990, 12, 24⟩ (by decide)

/-- C4 (counterexample): the claim's failure half is false — `5.6.1990` does
not match the strict DD.MM.YYYY pattern (one-digit day and month), yet
birthday validation accepts it, because `%d.%m.%Y` also matches one-digit
day and month fields. -/
theorem birthday_pattern_not_strict : ¬ claimBirthdayPattern := by
  intro h
  obtain ⟨-, h2, -⟩ := h midnightJun10 "5.6.1990" (by decide)
  have hnex : ¬ ∃ d : Date, strictBirthdayString "5.6.1990" d ∧ validDate d := by
    rintro ⟨d, ⟨ds, ms, ys, hsplit, _, hdl, _⟩, _⟩
    rw [show pySplitDots "5.6.1990" = [['5'], ['6'], ['1', '9', '9', '0']] from rfl] at hsplit
    simp only [List.cons.injEq, and_true] at hsplit
    obtain ⟨h1, -, -⟩ := hsplit
    rw [← h1] at hdl
    exact absurd hdl (by decide)
  obtain ⟨e, he⟩ := h2 hnex
  have heval : Birthday.init midnightJun10 "5.6.1990" = .ok ⟨⟨1990, 6, 5⟩, 0⟩ := by decide
  rw [heval] at he
  exact Except.noConfusion he
